import Mathlib

/-!
Shallow embedding of `evennia/contrib/traits.py`: the Counter and Gauge
trait engines (lazy rate decay, boundary enforcement, timer control), the
Static trait setters, and the TraitHandler record store with input
validation.  Numbers are modelled as rationals, the injected clock reading
(`time()`) as a rational passed explicitly to every operation that reads it.
-/

namespace Traits

/-- The persisted numeric fields of a `CounterTrait` record: the
`default_keys` entries `base`, `mod`, `min`, `max`, `rate`, `ratetarget`
together with the `current` and `last_update` entries the engine writes.
`current = none` models a record whose dict has no `current` key yet (reads
then fall back to `base`); `last_update = none` models `last_update is None`
(no active timer).  The `descs` entry carries no numeric state used by any
operation modelled here and is kept only in the record-store layer below. -/
structure CounterData where
  base : ℚ
  mod : ℚ
  min : Option ℚ
  max : Option ℚ
  current : Option ℚ
  rate : ℚ
  ratetarget : Option ℚ
  last_update : Option ℚ
deriving DecidableEq, Repr

/-- `CounterTrait._within_boundaries`: false as soon as the value sits at or
beyond a set bound (`value <= self.min` or `value >= self.max`). -/
def withinBoundaries (s : CounterData) (v : ℚ) : Bool :=
  !((match s.min with | some mn => decide (v ≤ mn) | none => false)
    || (match s.max with | some mx => decide (mx ≤ v) | none => false))

/-- The `max` half of `CounterTrait._enforce_boundaries`. -/
def enforceMax (s : CounterData) (v : ℚ) : ℚ :=
  match s.max with
  | some mx => if mx ≤ v then mx else v
  | none => v

/-- `CounterTrait._enforce_boundaries`: the `min` check runs first and
returns immediately, exactly as the source's two sequential `if`s. -/
def enforceBoundaries (s : CounterData) (v : ℚ) : ℚ :=
  match s.min with
  | some mn => if v ≤ mn then mn else enforceMax s v
  | none => enforceMax s v

/-- `CounterTrait._passed_ratetarget`: the target was crossed in the
direction of travel. -/
def passedRatetarget (s : CounterData) (v : ℚ) : Bool :=
  match s.ratetarget with
  | some rt => decide (s.rate < 0 ∧ v ≤ rt) || decide (0 < s.rate ∧ rt ≤ v)
  | none => false

/-- `CounterTrait._stop_timer`. -/
def stopTimer (s : CounterData) : CounterData :=
  if s.rate ≠ 0 ∧ s.last_update ≠ none then { s with last_update := none } else s

/-- `CounterTrait._check_and_start_timer` (its state effect; the source
returns the checked value unchanged). -/
def checkAndStartTimer (s : CounterData) (now v : ℚ) : CounterData :=
  if s.rate ≠ 0 ∧ s.last_update = none then
    if withinBoundaries s v ∧ ¬ passedRatetarget s v then
      { s with last_update := some now }
    else s
  else s

/-- `CounterTrait._update_current`: the lazy decay step.  Returns the new
current value together with the mutated record; `now` is the clock reading.
`passedRatetarget` holds only when `ratetarget` is `some`, so `getD 0`
never supplies its default. -/
def updateCurrent (s : CounterData) (now cur : ℚ) : ℚ × CounterData :=
  if s.rate ≠ 0 then
    match s.last_update with
    | some lu =>
      let cur1 := cur + s.rate * (now - lu)
      let v := cur1 + s.mod
      if passedRatetarget s v then
        let c := s.ratetarget.getD 0 - s.mod
        (c, { stopTimer s with current := some c })
      else if !withinBoundaries s v then
        let c := enforceBoundaries s v - s.mod
        (c, { stopTimer s with current := some c })
      else
        (cur1, { s with last_update := some now, current := some cur1 })
    | none => (cur, s)
  else (cur, s)

/-- Reading `CounterTrait.current`: `_update_current(self._data.get("current",
self.base))`. -/
def readCurrent (s : CounterData) (now : ℚ) : ℚ × CounterData :=
  updateCurrent s now (s.current.getD s.base)

/-- Reading `CounterTrait.value`: `_enforce_boundaries(self.current +
self.mod)`, where the `current` read performs the decay update. -/
def readValue (s : CounterData) (now : ℚ) : ℚ × CounterData :=
  let p := readCurrent s now
  (enforceBoundaries p.2 (p.1 + p.2.mod), p.2)

/-- The `current` setter for a numeric input: the timer check runs on the
enforced value before it is stored. -/
def setCurrent (s : CounterData) (v now : ℚ) : CounterData :=
  let c := enforceBoundaries s v
  { checkAndStartTimer s now c with current := some c }

/-- The `current` deleter (also `reset()`): back to `base`. -/
def delCurrent (s : CounterData) : CounterData :=
  { s with current := some s.base }

/-- The numeric branch of the `base` setter: the stored base is shifted so
`base + mod` lands on a crossed bound; `mod` is untouched. -/
def setBase (s : CounterData) (v : ℚ) : CounterData :=
  let v1 := match s.min with
    | some mn => if v + s.mod < mn then mn - s.mod else v
    | none => v
  let v2 := match s.max with
    | some mx => if mx < v1 + s.mod then mx - s.mod else v1
    | none => v1
  { s with base := v2 }

/-- The `value is None` branch of the `base` setter: the source stores the
class default (`self._data["base"] = self.default_keys["base"]`, i.e. `0`)
and the following numeric type check does not fire - no clamping happens. -/
def setBaseNone (s : CounterData) : CounterData :=
  { s with base := 0 }

/-- The numeric branch of the `mod` setter, symmetric to `setBase`. -/
def setMod (s : CounterData) (v : ℚ) : CounterData :=
  let v1 := match s.min with
    | some mn => if v + s.base < mn then mn - s.base else v
    | none => v
  let v2 := match s.max with
    | some mx => if mx < v1 + s.base then mx - s.base else v1
    | none => v1
  { s with mod := v2 }

/-- The `value is None` branch of the `mod` setter (`elif` in the source):
reset to the class default `0` with no clamping. -/
def setModNone (s : CounterData) : CounterData :=
  { s with mod := 0 }

/-- The numeric branch of the `min` setter: capped by an existing `max`,
then by `base + mod`. -/
def setMin (s : CounterData) (v : ℚ) : CounterData :=
  let v1 := match s.max with | some mx => min mx v | none => v
  { s with min := some (min v1 (s.base + s.mod)) }

/-- Unsetting the lower bound (`trait.min = None`). -/
def setMinNone (s : CounterData) : CounterData :=
  { s with min := none }

/-- The numeric branch of the `max` setter: floored by an existing `min`,
then by `base + mod`. -/
def setMax (s : CounterData) (v : ℚ) : CounterData :=
  let v1 := match s.min with | some mn => max mn v | none => v
  { s with max := some (max v1 (s.base + s.mod)) }

/-- Unsetting the upper bound (`trait.max = None`). -/
def setMaxNone (s : CounterData) : CounterData :=
  { s with max := none }

/-- The `ratetarget` setter: stores the boundary-enforced value and then
runs `_check_and_start_timer(self.value)` - reading `self.value` performs a
full lazy decay update first. -/
def setRatetarget (s : CounterData) (v now : ℚ) : CounterData :=
  let s1 := { s with ratetarget := some (enforceBoundaries s v) }
  let p := readValue s1 now
  checkAndStartTimer p.2 now p.1

/-- Writing `rate` on a Counter or Gauge: no `rate` property exists on any
trait class, so `Trait.__setattr__` stores the value through the open
extra-property path (`self._data["rate"] = value`) with no timer check. -/
def setRate (s : CounterData) (v : ℚ) : CounterData :=
  { s with rate := v }

/-- The persisted numeric fields of a `GaugeTrait` record.  There is no
`max` entry: `GaugeTrait` removes `max` from `default_keys` and computes it
from `base + mod`.  The stored `min` entry may be `None`; the `min` getter
substitutes the class default `0` for it. -/
structure GaugeData where
  base : ℚ
  mod : ℚ
  min : Option ℚ
  current : Option ℚ
  rate : ℚ
  ratetarget : Option ℚ
  last_update : Option ℚ
deriving DecidableEq, Repr

/-- `GaugeTrait.min` getter: the stored value with the default `0`
substituted when the stored value is `None`. -/
def gmin (s : GaugeData) : ℚ := s.min.getD 0

/-- `GaugeTrait.max` getter: always the live `base + mod`, never stored. -/
def gmax (s : GaugeData) : ℚ := s.base + s.mod

/-- `GaugeTrait._enforce_boundaries`: floor at `min`, ceiling at the live
`mod + base`. -/
def genforce (s : GaugeData) (v : ℚ) : ℚ :=
  if v ≤ gmin s then gmin s else min (s.mod + s.base) v

/-- `CounterTrait._within_boundaries` as inherited by `GaugeTrait`:
`self.min` and `self.max` resolve to the Gauge getters, which never return
`None`. -/
def gwithin (s : GaugeData) (v : ℚ) : Bool :=
  !(decide (v ≤ gmin s) || decide (gmax s ≤ v))

/-- `CounterTrait._passed_ratetarget` as inherited by `GaugeTrait`. -/
def gpassedRatetarget (s : GaugeData) (v : ℚ) : Bool :=
  match s.ratetarget with
  | some rt => decide (s.rate < 0 ∧ v ≤ rt) || decide (0 < s.rate ∧ rt ≤ v)
  | none => false

/-- `CounterTrait._stop_timer` as inherited by `GaugeTrait`. -/
def gstopTimer (s : GaugeData) : GaugeData :=
  if s.rate ≠ 0 ∧ s.last_update ≠ none then { s with last_update := none } else s

/-- `CounterTrait._check_and_start_timer` as inherited by `GaugeTrait`. -/
def gcheckAndStartTimer (s : GaugeData) (now v : ℚ) : GaugeData :=
  if s.rate ≠ 0 ∧ s.last_update = none then
    if gwithin s v ∧ ¬ gpassedRatetarget s v then { s with last_update := some now }
    else s
  else s

/-- `GaugeTrait._update_current`: as the Counter's, but the probe is the
candidate itself (no `mod` added) and a crossed `ratetarget` is stored
directly. -/
def gupdateCurrent (s : GaugeData) (now cur : ℚ) : ℚ × GaugeData :=
  if s.rate ≠ 0 then
    match s.last_update with
    | some lu =>
      let cur1 := cur + s.rate * (now - lu)
      if gpassedRatetarget s cur1 then
        let c := s.ratetarget.getD 0
        (c, { gstopTimer s with current := some c })
      else if !gwithin s cur1 then
        let c := genforce s cur1
        (c, { gstopTimer s with current := some c })
      else
        (cur1, { s with last_update := some now, current := some cur1 })
    | none => (cur, s)
  else (cur, s)

/-- Reading `GaugeTrait.current`: the stored value (default `base + mod`)
is boundary-enforced first, then passed through the decay update. -/
def greadCurrent (s : GaugeData) (now : ℚ) : ℚ × GaugeData :=
  gupdateCurrent s now (genforce s (s.current.getD (s.base + s.mod)))

/-- Reading `GaugeTrait.value`: it returns `self.current` directly. -/
def greadValue (s : GaugeData) (now : ℚ) : ℚ × GaugeData :=
  greadCurrent s now

/-- The Gauge `current` setter for a numeric input. -/
def gsetCurrent (s : GaugeData) (v now : ℚ) : GaugeData :=
  let c := genforce s v
  { gcheckAndStartTimer s now c with current := some c }

/-- The Gauge `current` deleter (also `reset()`): refill to `base + mod`. -/
def gdelCurrent (s : GaugeData) : GaugeData :=
  { s with current := some (s.base + s.mod) }

/-- The numeric branch of the Gauge `base` setter: floored so `base + mod`
never drops below `min`. -/
def gsetBase (s : GaugeData) (v : ℚ) : GaugeData :=
  { s with base := if v + s.mod < gmin s then gmin s - s.mod else v }

/-- The numeric branch of the Gauge `mod` setter. -/
def gsetMod (s : GaugeData) (v : ℚ) : GaugeData :=
  { s with mod := if v + s.base < gmin s then gmin s - s.base else v }

/-- The exception values `GaugeTrait` raises; the message is the source's. -/
inductive TraitError where
  | traitException (msg : String)
deriving DecidableEq, Repr

/-- The Gauge `max` setter: it raises `TraitException` before touching any
state, so the record comes back unchanged alongside the error. -/
def gsetMax (s : GaugeData) (_v : ℚ) : TraitError × GaugeData :=
  (.traitException
    "The .max property is not settable on GaugeTraits. Set .base instead.", s)

/-- Deleting `max` on a Gauge: the custom deleter raises `TraitException`
before touching any state. -/
def gdelMax (s : GaugeData) : TraitError × GaugeData :=
  (.traitException
    "The .max property cannot be reset on GaugeTraits. Reset .mod and .base instead.", s)

/-- A stored Python value, as far as the traits module inspects one:
numbers, strings, dicts, `None` and the `MandatoryTraitKey` marker class
used in `default_keys`. -/
inductive PyVal where
  | num (q : ℚ)
  | str (s : String)
  | dict (entries : List (PyVal × PyVal))
  | pynone
  | mandatoryKey
deriving Repr

/-- A trait record: a string-keyed, insertion-ordered dict. -/
abbrev Rec := List (String × PyVal)

/-- The handler's backing store (`self.trait_data`): trait key to record. -/
abbrev Store := List (String × Rec)

/-- Python dict assignment `d[k] = v`: update in place, else append. -/
def alistSet {α : Type} (l : List (String × α)) (k : String) (v : α) :
    List (String × α) :=
  match l with
  | [] => [(k, v)]
  | (k', v') :: rest =>
      if k' = k then (k, v) :: rest else (k', v') :: alistSet rest k v

/-- Python dict deletion `del d[k]` (for a dict with unique keys). -/
def alistErase {α : Type} (l : List (String × α)) (k : String) :
    List (String × α) :=
  match l with
  | [] => []
  | (k', v') :: rest =>
      if k' = k then rest else (k', v') :: alistErase rest k

/-- Python dict lookup, first matching key. -/
def alistFind {α : Type} (l : List (String × α)) (k : String) : Option α :=
  match l with
  | [] => none
  | (k', v') :: rest => if k' = k then some v' else alistFind rest k

/-- A trait class as the validation routine sees one: its `trait_type`
tag, its `default_keys` (with `PyVal.mandatoryKey` marking a mandatory
key) and its `allow_extra_properties` flag. -/
structure TraitClassSpec where
  traitType : String
  defaultKeys : List (String × PyVal)
  allowExtra : Bool

/-- The errors `validate_input` raises (all `TraitException`s in the
source; `missingKeys` carries the keys the message lists). -/
inductive ValError where
  | missingKeys (traitType : String) (keys : List String)
  | badDescs
deriving Repr

/-- Is this default value the `MandatoryTraitKey` marker? -/
def isMandatoryDefault : PyVal → Bool
  | .mandatoryKey => true
  | _ => false

/-- The mandatory keys of `cls` that `data` leaves unset. -/
def missingMandatory (cls : TraitClassSpec) (data : Rec) : List String :=
  ((cls.defaultKeys.filter fun kv => (alistFind data kv.1).isNone).filter
    fun kv => isMandatoryDefault kv.2).map (·.1)

/-- `Trait.validate_input`: `name`/`trait_type` are always required; every
other unset key either falls back to its default or, when its default is
the `MandatoryTraitKey` marker, joins the combined missing-keys error; with
extras disallowed, keys outside the schema are dropped. -/
def baseValidate (cls : TraitClassSpec) (data : Rec) : Except ValError Rec :=
  let missingReq := ["name", "trait_type"].filter
    fun k => (alistFind data k).isNone
  if missingReq ≠ [] then .error (.missingKeys cls.traitType missingReq)
  else if missingMandatory cls data ≠ [] then
    .error (.missingKeys cls.traitType (missingMandatory cls data))
  else
    let unset := cls.defaultKeys.filter fun kv => (alistFind data kv.1).isNone
    let data1 := unset.foldl (fun d kv => alistSet d kv.1 kv.2) data
    let data2 := if cls.allowExtra then data1
      else data1.filter fun kv =>
        kv.1 = "name" ∨ kv.1 = "trait_type" ∨
          (alistFind cls.defaultKeys kv.1).isSome
    .ok data2

/-- The descs form check of `CounterTrait.validate_input`: a dict value
must map numbers to strings; any non-dict value passes the check. -/
def descsOk (v : Option PyVal) : Bool :=
  match v with
  | some (.dict entries) =>
      entries.all fun kv =>
        match kv.1, kv.2 with
        | .num _, .str _ => true
        | _, _ => false
  | _ => true

/-- `trait_data["rate"] != 0` as Python evaluates it.  After the defaults
are applied the `rate` key is always present for the Counter and Gauge
classes (their `default_keys` carry `rate: 0`), so the `none` branch is
unreachable there; a non-numeric value compares unequal to `0`. -/
def rateNonzero (v : Option PyVal) : Bool :=
  match v with
  | some (.num q) => decide (q ≠ 0)
  | some _ => true
  | none => true

/-- `CounterTrait.validate_input` (also inherited by `GaugeTrait`): base
validation, the descs form check, then timer initialisation from `rate`
(`last_update` becomes the clock reading `now` when the rate is nonzero,
else `None`). -/
def counterValidate (cls : TraitClassSpec) (now : ℚ) (data : Rec) :
    Except ValError Rec :=
  match baseValidate cls data with
  | .error e => .error e
  | .ok d =>
      if descsOk (alistFind d "descs") then
        if rateNonzero (alistFind d "rate") then
          .ok (alistSet d "last_update" (.num now))
        else .ok (alistSet d "last_update" .pynone)
      else .error .badDescs

/-- `CounterTrait.default_keys`. -/
def counterClass : TraitClassSpec where
  traitType := "counter"
  defaultKeys := [("base", .num 0), ("mod", .num 0), ("min", .pynone),
    ("max", .pynone), ("descs", .pynone), ("rate", .num 0),
    ("ratetarget", .pynone)]
  allowExtra := true

/-- `GaugeTrait.default_keys` (no `max` entry; `min` defaults to `0`). -/
def gaugeClass : TraitClassSpec where
  traitType := "gauge"
  defaultKeys := [("base", .num 0), ("mod", .num 0), ("min", .num 0),
    ("descs", .pynone), ("rate", .num 0), ("ratetarget", .pynone)]
  allowExtra := true

/-- The errors `TraitHandler.add` raises (all `TraitException`s). -/
inductive AddError where
  | duplicateKey (k : String)
  | validation (e : ValError)
deriving Repr

/-- The field set `TraitHandler.add` hands to `validate_input`: the
caller's properties with `name` and `trait_type` written in.  Python's
`trait_key.title()` is modelled as `String.capitalize` (the keys in play
are single words). -/
def mergedProps (key : String) (name : Option String) (traitType : String)
    (props : Rec) : Rec :=
  alistSet (alistSet props "name" (.str (name.getD key.capitalize)))
    "trait_type" (.str traitType)

/-- `TraitHandler.add`, specialised to one trait class's validator.
Returns the outcome together with the store as it stands when the source
returns or raises: an existing key is removed first when `force` is set,
and a later validation failure does not restore it. -/
def addTrait (validate : Rec → Except ValError Rec) (traitType : String)
    (st : Store) (key : String) (name : Option String) (force : Bool)
    (props : Rec) : Except AddError Unit × Store :=
  if (alistFind st key).isSome then
    if force then addTraitBody validate traitType (alistErase st key) key name props
    else (.error (.duplicateKey key), st)
  else addTraitBody validate traitType st key name props
where
  addTraitBody (validate : Rec → Except ValError Rec) (traitType : String)
      (st : Store) (key : String) (name : Option String) (props : Rec) :
      Except AddError Unit × Store :=
    match validate (mergedProps key name traitType props) with
    | .error e => (.error (.validation e), st)
    | .ok valid => (.ok (), alistSet st key valid)

/-- The fields of a `StaticTrait` record, kept as raw stored values so
that non-numeric writes are expressible. -/
structure StaticData where
  base : PyVal
  mod : PyVal
deriving Repr

/-- The Static `mod` setter: stores only values of type `int`/`float`,
silently ignoring anything else. -/
def staticSetMod (s : StaticData) (v : PyVal) : StaticData :=
  match v with
  | .num _ => { s with mod := v }
  | _ => s

/-- Writing `base` on a Static trait: `StaticTrait` defines no `base`
property, so `Trait.__setattr__` stores any value - numeric or not -
through the open extra-property path (`self._data["base"] = value`). -/
def staticSetBase (s : StaticData) (v : PyVal) : StaticData :=
  { s with base := v }

/-! ### Concrete records used by the claims -/

/-- The spec's decay example: Counter with `base=10, mod=1, min=0, max=100`,
`current=41` at `t0 = 0`, `rate=1`, `ratetarget=71`, timer running. -/
def c1Example : CounterData where
  base := 10
  mod := 1
  min := some 0
  max := some 100
  current := some 41
  rate := 1
  ratetarget := some 71
  last_update := some 0

/-- A Gauge whose stored `ratetarget` exceeds `base + mod` (reachable: `add`
stores `ratetarget` unclamped, and lowering `base` later does not revisit
it).  Timer running from `t0 = 0` at `rate = 1`. -/
def c2Gauge : GaugeData where
  base := 100
  mod := 0
  min := some 0
  current := some 40
  rate := 1
  ratetarget := some 150
  last_update := some 0

/-- A Counter with `min=0, max=100` and a nonzero `mod=10`. -/
def c4Example : CounterData where
  base := 0
  mod := 10
  min := some 0
  max := some 100
  current := some 0
  rate := 0
  ratetarget := none
  last_update := none

/-- `TraitHandler.add` of a counter whose fields violate
`min ≤ base + mod ≤ max` (`base=10, mod=0, min=0, max=5`). -/
def c3Result : Except AddError Unit × Store :=
  addTrait (counterValidate counterClass 0) "counter" [] "skill" none true
    [("base", .num 10), ("mod", .num 0), ("min", .num 0), ("max", .num 5)]

/-- A store already holding a record under key `hp`. -/
def c5Store : Store :=
  [("hp", [("name", .str "Health"), ("trait_type", .str "gauge"),
    ("base", .num 100)])]

/-- Re-adding `hp` with `force=True` and a malformed `descs` value: the
validation fails after the old record was removed. -/
def c5Result : Except AddError Unit × Store :=
  addTrait (counterValidate counterClass 0) "counter" c5Store "hp" none true
    [("descs", PyVal.dict [(PyVal.str "x", PyVal.num 1)])]

/-- The module docstring's rate example just before `rate = 1` is written:
Counter with `base=10, mod=1, min=0, max=100, ratetarget=71`, `current`
debuffed to `40`, rate still `0` so no timer is running. -/
def c6Counter : CounterData where
  base := 10
  mod := 1
  min := some 0
  max := some 100
  current := some 40
  rate := 0
  ratetarget := some 71
  last_update := none

/-- A Gauge with `mod = 0` and default `min = 0`, as left by
`add("hp", trait_type="gauge", base=100)`. -/
def c7Gauge : GaugeData where
  base := 100
  mod := 0
  min := some 0
  current := none
  rate := 0
  ratetarget := none
  last_update := none

/-- The record a fresh `add(key, trait_type="gauge", base=b)` produces:
every other field at its default, no `current` key, no timer. -/
def freshGauge (b : ℚ) : GaugeData where
  base := b
  mod := 0
  min := some 0
  current := none
  rate := 0
  ratetarget := none
  last_update := none

/-! ### Helper lemmas -/

/-- Unfolding `readValue` one step. -/
theorem readValue_eq (s : CounterData) (now : ℚ) :
    readValue s now =
      (enforceBoundaries (readCurrent s now).2
        ((readCurrent s now).1 + (readCurrent s now).2.mod),
        (readCurrent s now).2) := rfl

/-- With no timer running, a Counter `value` read returns the stored state
unchanged. -/
theorem read_of_no_timer (s : CounterData) (now : ℚ) (h : s.last_update = none) :
    readValue s now = (enforceBoundaries s (s.current.getD s.base + s.mod), s) := by
  simp [readValue, readCurrent, updateCurrent, h]

/-- A Counter `value` read at the very instant the timer was last updated:
zero elapsed time, so the read reproduces the stored current. -/
theorem read_zero_elapsed (s : CounterData) (now c : ℚ) (hr : s.rate ≠ 0)
    (hlu : s.last_update = some now) (hc : s.current = some c)
    (hpass : passedRatetarget s (c + s.mod) = false)
    (hin : withinBoundaries s (c + s.mod) = true) :
    (readValue s now).1 = enforceBoundaries s (c + s.mod) := by
  obtain ⟨b, m, mn, mx, cur, r, rt, lu⟩ := s
  simp only at hr hlu hc
  subst hlu hc
  simp only [readValue, readCurrent, updateCurrent, Option.getD_some,
    sub_self, mul_zero, add_zero]
  rw [if_pos hr, if_neg ?_, if_neg ?_]
  · simpa using hin
  · simpa using hpass

/-- Reading a Counter twice at the same instant gives the same value, with
no hypothesis beyond an armed timer. -/
theorem counter_read_idem (s : CounterData) (t0 t1 : ℚ)
    (hr : s.rate ≠ 0) (hlu : s.last_update = some t0) :
    (readValue ((readValue s t1).2) t1).1 = (readValue s t1).1 := by
  by_cases hpass :
      passedRatetarget s (s.current.getD s.base + s.rate * (t1 - t0) + s.mod) = true
  · have hfirst : readCurrent s t1 =
        (s.ratetarget.getD 0 - s.mod,
          { s with last_update := none, current := some (s.ratetarget.getD 0 - s.mod) }) := by
      simp [readCurrent, updateCurrent, hlu, hr, hpass, stopTimer]
    rw [readValue_eq s t1, hfirst]
    rw [read_of_no_timer _ _ (by rfl)]
    simp
  · by_cases hin :
        withinBoundaries s (s.current.getD s.base + s.rate * (t1 - t0) + s.mod) = true
    · -- the timer stays armed; the second read advances by zero seconds
      have hfirst : readCurrent s t1 =
          (s.current.getD s.base + s.rate * (t1 - t0),
            { s with last_update := some t1,
                     current := some (s.current.getD s.base + s.rate * (t1 - t0)) }) := by
        simp [readCurrent, updateCurrent, hlu, hr, hpass, hin]
      rw [readValue_eq s t1, hfirst]
      exact read_zero_elapsed _ t1 _ hr rfl rfl
        (by simp only [passedRatetarget] at hpass ⊢; simpa using hpass)
        (by simp only [withinBoundaries] at hin ⊢; simpa using hin)
    · -- boundary stop on the first read
      have hfirst : readCurrent s t1 =
          (enforceBoundaries s (s.current.getD s.base + s.rate * (t1 - t0) + s.mod) - s.mod,
            { s with last_update := none,
                     current := some (enforceBoundaries s
                       (s.current.getD s.base + s.rate * (t1 - t0) + s.mod) - s.mod) }) := by
        simp [readCurrent, updateCurrent, hlu, hr, hpass, hin, stopTimer]
      rw [readValue_eq s t1, hfirst]
      rw [read_of_no_timer _ _ (by rfl)]
      simp

/-- `genforce` fixes any value already within `[min, base + mod]`. -/
theorem genforce_of_between (s : GaugeData) (v : ℚ)
    (h1 : gmin s ≤ v) (h2 : v ≤ s.base + s.mod) : genforce s v = v := by
  unfold genforce
  split
  · next h => exact le_antisymm h1 h
  · exact min_eq_right (by linarith)

/-- When `min ≤ base + mod`, the result of `genforce` lies within
`[min, base + mod]`. -/
theorem genforce_between (s : GaugeData) (v : ℚ)
    (hmin : gmin s ≤ s.base + s.mod) :
    gmin s ≤ genforce s v ∧ genforce s v ≤ s.base + s.mod := by
  unfold genforce
  split
  · exact ⟨le_refl _, hmin⟩
  · next h =>
    constructor
    · rcases le_total (s.mod + s.base) v with h' | h'
      · rw [min_eq_left h']; linarith
      · rw [min_eq_right h']; linarith
    · calc min (s.mod + s.base) v ≤ s.mod + s.base := min_le_left _ _
        _ = s.base + s.mod := by ring

/-- With no timer running, a Gauge `value` read returns the enforced stored
current and leaves the state unchanged. -/
theorem gread_of_no_timer (s : GaugeData) (now : ℚ) (h : s.last_update = none) :
    greadValue s now = (genforce s (s.current.getD (s.base + s.mod)), s) := by
  simp [greadValue, greadCurrent, gupdateCurrent, h]

/-- A Gauge `value` read at the very instant the timer was last updated,
for a stored current strictly inside the bounds. -/
theorem gread_zero_elapsed (s : GaugeData) (now c : ℚ) (hr : s.rate ≠ 0)
    (hlu : s.last_update = some now) (hc : s.current = some c)
    (hpass : gpassedRatetarget s c = false)
    (hin : gwithin s c = true) :
    (greadValue s now).1 = c := by
  have hin' : ¬ (c ≤ gmin s) ∧ ¬ (gmax s ≤ c) := by
    simpa [gwithin, Bool.not_eq_true', Bool.or_eq_false_iff,
      decide_eq_false_iff_not] using hin
  have henf : genforce s c = c :=
    genforce_of_between s c (le_of_lt (not_le.mp hin'.1))
      (le_of_lt (not_le.mp hin'.2))
  obtain ⟨b, m, mn, cur, r, rt, lu⟩ := s
  simp only at hr hlu hc
  subst hlu hc
  simp only [greadValue, greadCurrent, gupdateCurrent, Option.getD_some]
  rw [henf]
  simp only [sub_self, mul_zero, add_zero]
  rw [if_pos hr, if_neg ?_, if_neg ?_]
  · simpa using hin
  · simpa using hpass


theorem greadCurrent_no_timer (s : GaugeData) (now : ℚ) (h : s.last_update = none) :
    greadCurrent s now = (genforce s (s.current.getD (s.base + s.mod)), s) := by
  simp [greadCurrent, gupdateCurrent, h]

theorem genforce_congr (s s' : GaugeData) (h1 : s'.min = s.min)
    (h2 : s'.mod = s.mod) (h3 : s'.base = s.base) (v : ℚ) :
    genforce s' v = genforce s v := by
  unfold genforce gmin
  rw [h1, h2, h3]

theorem gauge_read_idem (g : GaugeData) (t0 t1 : ℚ)
    (hr : g.rate ≠ 0) (hlu : g.last_update = some t0)
    (hmin : gmin g ≤ g.base + g.mod)
    (hrt : ∀ rt, g.ratetarget = some rt → gmin g ≤ rt ∧ rt ≤ g.base + g.mod) :
    (greadValue ((greadValue g t1).2) t1).1 = (greadValue g t1).1 := by
  simp only [greadValue]
  set c1 := genforce g (g.current.getD (g.base + g.mod)) + g.rate * (t1 - t0) with hc1
  by_cases hpass : gpassedRatetarget g c1 = true
  · -- ratetarget crossed on the first read
    cases hrtg : g.ratetarget with
    | none => rw [gpassedRatetarget, hrtg] at hpass; exact absurd hpass (by simp)
    | some rtv =>
      have hb := hrt rtv hrtg
      have hfirst : greadCurrent g t1 =
          (g.ratetarget.getD 0,
            { g with last_update := none, current := some (g.ratetarget.getD 0) }) := by
        simp [greadCurrent, gupdateCurrent, hlu, hr, hpass, gstopTimer, hc1]
      rw [hfirst]
      rw [greadCurrent_no_timer _ t1 (by rfl)]
      simp only [Option.getD_some, hrtg]
      rw [genforce_congr g _ (by rfl) (by rfl) (by rfl)]
      exact genforce_of_between g rtv hb.1 hb.2
  · by_cases hin : gwithin g c1 = true
    · -- timer stays armed
      have hfirst : greadCurrent g t1 =
          (c1, { g with last_update := some t1, current := some c1 }) := by
        simp [greadCurrent, gupdateCurrent, hlu, hr, hpass, hin, hc1]
      rw [hfirst]
      exact gread_zero_elapsed _ t1 _ hr rfl rfl
        (by simp only [gpassedRatetarget] at hpass ⊢; simpa using hpass)
        (by simp only [gwithin, gmin, gmax] at hin ⊢; simpa using hin)
    · -- boundary stop
      have hfirst : greadCurrent g t1 =
          (genforce g c1,
            { g with last_update := none, current := some (genforce g c1) }) := by
        simp [greadCurrent, gupdateCurrent, hlu, hr, hpass, hin, gstopTimer, hc1]
      rw [hfirst]
      rw [greadCurrent_no_timer _ t1 (by rfl)]
      simp only [Option.getD_some]
      rw [genforce_congr g _ (by rfl) (by rfl) (by rfl)]
      exact genforce_of_between g _
        (genforce_between g _ hmin).1 (genforce_between g _ hmin).2

/-- The spec's bounded-counter invariant: when both bounds are set,
`min ≤ max` and `min ≤ base + mod ≤ max`. -/
def BoundsInv (s : CounterData) : Prop :=
  ∀ mn mx, s.min = some mn → s.max = some mx →
    mn ≤ mx ∧ mn ≤ s.base + s.mod ∧ s.base + s.mod ≤ mx

/-- The strengthened invariant the setters maintain: each half of the
boundary relation holds relative to whichever bound is set. -/
def BoundsInvFull (s : CounterData) : Prop :=
  (∀ mn mx, s.min = some mn → s.max = some mx → mn ≤ mx) ∧
  (∀ mn, s.min = some mn → mn ≤ s.base + s.mod) ∧
  (∀ mx, s.max = some mx → s.base + s.mod ≤ mx)

theorem full_implies_inv (s : CounterData) (h : BoundsInvFull s) : BoundsInv s :=
  fun mn mx hmn hmx =>
    ⟨h.1 mn mx hmn hmx, h.2.1 mn hmn, h.2.2 mx hmx⟩

theorem setBase_inv (s : CounterData) (v : ℚ) (h : BoundsInvFull s) :
    BoundsInvFull (setBase s v) := by
  obtain ⟨b, m, mn0, mx0, cur, r, rt, lu⟩ := s
  obtain ⟨h1, h2, h3⟩ := h
  refine ⟨?_, ?_, ?_⟩
  · intro mn mx hmn hmx
    simp only [setBase] at hmn hmx
    exact h1 mn mx hmn hmx
  · intro mn hmn
    simp only [setBase] at hmn ⊢
    subst hmn
    cases hmx : mx0 with
    | none => simp only [hmx]; split_ifs <;> linarith
    | some mx =>
      have := h1 mn mx rfl hmx
      simp only [hmx]
      split_ifs <;> linarith
  · intro mx hmx
    simp only [setBase] at hmx ⊢
    subst hmx
    cases hmn : mn0 with
    | none => simp only [hmn]; split_ifs <;> linarith
    | some mn =>
      have := h1 mn mx hmn rfl
      simp only [hmn]
      split_ifs <;> linarith

theorem setMod_inv (s : CounterData) (v : ℚ) (h : BoundsInvFull s) :
    BoundsInvFull (setMod s v) := by
  obtain ⟨b, m, mn0, mx0, cur, r, rt, lu⟩ := s
  obtain ⟨h1, h2, h3⟩ := h
  refine ⟨?_, ?_, ?_⟩
  · intro mn mx hmn hmx
    simp only [setMod] at hmn hmx
    exact h1 mn mx hmn hmx
  · intro mn hmn
    simp only [setMod] at hmn ⊢
    subst hmn
    cases hmx : mx0 with
    | none => simp only [hmx]; split_ifs <;> linarith
    | some mx =>
      have := h1 mn mx rfl hmx
      simp only [hmx]
      split_ifs <;> linarith
  · intro mx hmx
    simp only [setMod] at hmx ⊢
    subst hmx
    cases hmn : mn0 with
    | none => simp only [hmn]; split_ifs <;> linarith
    | some mn =>
      have := h1 mn mx hmn rfl
      simp only [hmn]
      split_ifs <;> linarith

theorem setMin_inv (s : CounterData) (v : ℚ) (h : BoundsInvFull s) :
    BoundsInvFull (setMin s v) := by
  obtain ⟨b, m, mn0, mx0, cur, r, rt, lu⟩ := s
  obtain ⟨h1, h2, h3⟩ := h
  refine ⟨?_, ?_, ?_⟩
  · intro mn mx hmn hmx
    simp only [setMin] at hmn hmx
    subst hmx
    rw [Option.some_inj] at hmn
    simp only at hmn
    subst hmn
    exact le_trans (min_le_left _ _) (min_le_left _ _)
  · intro mn hmn
    simp only [setMin] at hmn ⊢
    rw [Option.some_inj] at hmn
    subst hmn
    exact min_le_right _ _
  · intro mx hmx
    simp only [setMin] at hmx ⊢
    exact h3 mx hmx

theorem setMax_inv (s : CounterData) (v : ℚ) (h : BoundsInvFull s) :
    BoundsInvFull (setMax s v) := by
  obtain ⟨b, m, mn0, mx0, cur, r, rt, lu⟩ := s
  obtain ⟨h1, h2, h3⟩ := h
  refine ⟨?_, ?_, ?_⟩
  · intro mn mx hmn hmx
    simp only [setMax] at hmn hmx
    subst hmn
    rw [Option.some_inj] at hmx
    simp only at hmx
    subst hmx
    exact le_trans (le_max_left _ _) (le_max_left _ _)
  · intro mn hmn
    simp only [setMax] at hmn ⊢
    exact h2 mn hmn
  · intro mx hmx
    simp only [setMax] at hmx ⊢
    rw [Option.some_inj] at hmx
    subst hmx
    exact le_max_right _ _

theorem setMinNone_inv (s : CounterData) (h : BoundsInvFull s) :
    BoundsInvFull (setMinNone s) := by
  obtain ⟨h1, h2, h3⟩ := h
  refine ⟨?_, ?_, ?_⟩
  · intro mn mx hmn hmx
    simp [setMinNone] at hmn
  · intro mn hmn
    simp [setMinNone] at hmn
  · intro mx hmx
    simp only [setMinNone] at hmx ⊢
    exact h3 mx hmx

theorem setMaxNone_inv (s : CounterData) (h : BoundsInvFull s) :
    BoundsInvFull (setMaxNone s) := by
  obtain ⟨h1, h2, h3⟩ := h
  refine ⟨?_, ?_, ?_⟩
  · intro mn mx hmn hmx
    simp [setMaxNone] at hmx
  · intro mn hmn
    simp only [setMaxNone] at hmn ⊢
    exact h2 mn hmn
  · intro mx hmx
    simp [setMaxNone] at hmx

/-- `_enforce_boundaries` lands in `[min, max]` when both bounds are set
with `min ≤ max`. -/
theorem enforce_between (s : CounterData) (v mn mx : ℚ)
    (hmn : s.min = some mn) (hmx : s.max = some mx) (hle : mn ≤ mx) :
    mn ≤ enforceBoundaries s v ∧ enforceBoundaries s v ≤ mx := by
  simp only [enforceBoundaries, enforceMax, hmn, hmx]
  split_ifs <;> constructor <;> linarith

/-- `_enforce_boundaries` maps any input at or below a set `min` to `min`. -/
theorem enforce_low (s : CounterData) (v mn : ℚ)
    (hmn : s.min = some mn) (hv : v ≤ mn) : enforceBoundaries s v = mn := by
  simp only [enforceBoundaries, hmn]
  rw [if_pos hv]

/-- `_enforce_boundaries` maps any input at or above a set `max` to `max`
(given consistent bounds). -/
theorem enforce_high (s : CounterData) (v mn mx : ℚ)
    (hmn : s.min = some mn) (hmx : s.max = some mx) (hle : mn ≤ mx)
    (hv : mx ≤ v) : enforceBoundaries s v = mx := by
  simp only [enforceBoundaries, enforceMax, hmn, hmx]
  split_ifs <;> linarith


theorem updateCurrent_ratetarget (s : CounterData) (now cur : ℚ) :
    ((updateCurrent s now cur).2).ratetarget = s.ratetarget := by
  unfold updateCurrent stopTimer
  dsimp only
  repeat' split
  all_goals rfl

theorem checkAndStartTimer_ratetarget (s : CounterData) (now v : ℚ) :
    (checkAndStartTimer s now v).ratetarget = s.ratetarget := by
  unfold checkAndStartTimer
  repeat' split
  all_goals rfl

theorem readValue_ratetarget (s : CounterData) (now : ℚ) :
    ((readValue s now).2).ratetarget = s.ratetarget := by
  simp only [readValue, readCurrent]
  exact updateCurrent_ratetarget _ _ _

theorem setRatetarget_stores (s : CounterData) (v now : ℚ) :
    (setRatetarget s v now).ratetarget = some (enforceBoundaries s v) := by
  simp only [setRatetarget]
  rw [checkAndStartTimer_ratetarget, readValue_ratetarget]

theorem alistErase_absent {α : Type} (l : List (String × α)) (k : String)
    (h : alistFind l k = none) : alistErase l k = l := by
  induction l with
  | nil => rfl
  | cons kv rest ih =>
    obtain ⟨k', v'⟩ := kv
    simp only [alistFind] at h
    simp only [alistErase]
    by_cases hk : k' = k
    · rw [if_pos hk] at h; exact absurd h (by simp)
    · rw [if_neg hk] at h
      rw [if_neg hk, ih h]


/-- Is this stored value of Python type `int`/`float`? -/
def isNum : PyVal → Bool
  | .num _ => true
  | _ => false

/-- A Static trait with `base=3, mod=2`. -/
def c9Static : StaticData where
  base := .num 3
  mod := .num 2

/-- A Counter satisfying the invariant (`base=3, mod=3, min=5, max=20`,
so `5 ≤ 3+3 ≤ 20`), from which a `base = None` or `mod = None` write
resets the field to `0` unclamped. -/
def c3SetterExample : CounterData where
  base := 3
  mod := 3
  min := some 5
  max := some 20
  current := some 3
  rate := 0
  ratetarget := none
  last_update := none

/-- C3 counterexample, both halves of the failure: (a) `Handler.add`
accepts a counter with `base=10, mod=0, min=0, max=5` - validation succeeds
and stores the fields unclamped, so `min ≤ base + mod ≤ max` is not
established at construction; (b) from an invariant-satisfying state, the
`base = None` and `mod = None` setter branches reset the field to the
default `0` with no clamping, breaking `min ≤ base + mod` - so the
invariant is not preserved by every setter either. -/
theorem counter_add_unclamped_cex :
    c3Result.1 = .ok () ∧
    alistFind ((alistFind c3Result.2 "skill").getD []) "min" = some (.num 0) ∧
    alistFind ((alistFind c3Result.2 "skill").getD []) "max" = some (.num 5) ∧
    alistFind ((alistFind c3Result.2 "skill").getD []) "base" = some (.num 10) ∧
    alistFind ((alistFind c3Result.2 "skill").getD []) "mod" = some (.num 0) ∧
    ¬ ((10 : ℚ) + 0 ≤ 5) ∧
    BoundsInvFull c3SetterExample ∧
    ¬ BoundsInv (setBaseNone c3SetterExample) ∧
    ¬ BoundsInv (setModNone c3SetterExample) := by
  refine ⟨rfl, rfl, rfl, rfl, rfl, by norm_num, ⟨?_, ?_, ?_⟩, ?_, ?_⟩
  · intro mn mx h1 h2
    simp only [c3SetterExample, Option.some.injEq] at h1 h2
    subst h1 h2
    norm_num
  · intro mn h1
    simp only [c3SetterExample, Option.some.injEq] at h1
    subst h1
    norm_num [c3SetterExample]
  · intro mx h2
    simp only [c3SetterExample, Option.some.injEq] at h2
    subst h2
    norm_num [c3SetterExample]
  · intro h
    have := h 5 20 rfl rfl
    norm_num [setBaseNone, c3SetterExample] at this
  · intro h
    have := h 5 20 rfl rfl
    norm_num [setModNone, c3SetterExample] at this

/-- C3 (amended): each signed half of the boundary invariant (`min ≤ max`
when both set, `min ≤ base+mod` when `min` set, `base+mod ≤ max` when `max`
set, jointly implying the spec's invariant) is preserved by every numeric
setter of `base`, `mod`, `min` and `max` and by unsetting either bound -
but it is not established at construction, and the `base = None` /
`mod = None` setter branches reset the field to the default `0` with no
clamping, so they do not preserve it. -/
theorem counter_invariant_preserved :
    (∀ s : CounterData, BoundsInvFull s → BoundsInv s) ∧
    (∀ (s : CounterData) (v : ℚ), BoundsInvFull s → BoundsInvFull (setBase s v)) ∧
    (∀ (s : CounterData) (v : ℚ), BoundsInvFull s → BoundsInvFull (setMod s v)) ∧
    (∀ (s : CounterData) (v : ℚ), BoundsInvFull s → BoundsInvFull (setMin s v)) ∧
    (∀ (s : CounterData) (v : ℚ), BoundsInvFull s → BoundsInvFull (setMax s v)) ∧
    (∀ s : CounterData, BoundsInvFull s → BoundsInvFull (setMinNone s)) ∧
    (∀ s : CounterData, BoundsInvFull s → BoundsInvFull (setMaxNone s)) ∧
    (∀ s : CounterData, setBaseNone s = { s with base := 0 }) ∧
    (∀ s : CounterData, setModNone s = { s with mod := 0 }) :=
  ⟨full_implies_inv, setBase_inv, setMod_inv, setMin_inv, setMax_inv,
    setMinNone_inv, setMaxNone_inv, fun _ => rfl, fun _ => rfl⟩

/-- C5 counterexample: re-adding the existing key `hp` with `force=True`
and a malformed `descs` raises the validation error, yet the pre-existing
record is gone - `add` removed it before validating. -/
theorem add_force_removes_cex :
    (alistFind c5Store "hp").isSome = true ∧
    c5Result.1 = .error (.validation .badDescs) ∧
    alistFind c5Result.2 "hp" = none :=
  ⟨rfl, rfl, rfl⟩

/-- C5 (amended): when validation of the merged field set fails,
`Handler.add` raises and stores no new record, and the missing-mandatory
error names all missing mandatory keys; but with `force=True` the
pre-existing record was already removed, so the store is left without the
key rather than unchanged. -/
theorem add_validation_failure :
    (∀ (validate : Rec → Except ValError Rec) (traitType : String) (st : Store)
        (key : String) (name : Option String) (props : Rec) (e : ValError),
      validate (mergedProps key name traitType props) = .error e →
      addTrait validate traitType st key name true props =
        (.error (.validation e), alistErase st key)) ∧
    (∀ (cls : TraitClassSpec) (data : Rec),
      (alistFind data "name").isSome → (alistFind data "trait_type").isSome →
      missingMandatory cls data ≠ [] →
      baseValidate cls data =
        .error (.missingKeys cls.traitType (missingMandatory cls data))) ∧
    c5Result.1 = .error (.validation .badDescs) := by
  refine ⟨?_, ?_, rfl⟩
  · intro validate traitType st key name props e hval
    by_cases hk : (alistFind st key).isSome
    · simp only [addTrait, hk, if_true, addTrait.addTraitBody, hval]
    · have hnone : alistFind st key = none := Option.not_isSome_iff_eq_none.mp hk
      simp only [addTrait, hk, if_false, addTrait.addTraitBody, hval,
        alistErase_absent st key hnone]
      rfl
  · intro cls data hn ht hmand
    obtain ⟨a, ha⟩ := Option.isSome_iff_exists.mp hn
    obtain ⟨b, hb⟩ := Option.isSome_iff_exists.mp ht
    unfold baseValidate
    have h1 : (["name", "trait_type"].filter fun k => (alistFind data k).isNone) = [] := by
      simp [List.filter, ha, hb]
    rw [h1]
    simp only [ne_eq, not_true_eq_false, if_false, reduceIte]
    rw [if_pos hmand]

/-- C6: evaluating the code at the failing input of the claim (and of the
module docstring's rate example): writing `rate = 1` to a Counter whose
value sits strictly inside bounds and before `ratetarget` leaves
`last_update` unset, so every later `value` read returns 41 unchanged -
even though `_check_and_start_timer` would arm the timer if it ran. -/
theorem rate_write_no_timer :
    c6Counter.rate = 0 ∧ c6Counter.last_update = none ∧
    (setRate c6Counter 1).rate = 1 ∧
    (setRate c6Counter 1).last_update = none ∧
    (∀ t : ℚ, readValue (setRate c6Counter 1) t = (41, setRate c6Counter 1)) ∧
    (∀ t : ℚ, (checkAndStartTimer (setRate c6Counter 1) t 41).last_update = some t) := by
  refine ⟨rfl, rfl, rfl, rfl, ?_, ?_⟩
  · intro t
    rw [read_of_no_timer _ _ rfl]
    norm_num [setRate, c6Counter, enforceBoundaries, enforceMax]
  · intro t
    norm_num [checkAndStartTimer, setRate, c6Counter, withinBoundaries,
      passedRatetarget]

/-- C7: on a Gauge, `max` reads as `base + mod`, and both setting and
deleting `max` raise `TraitException` with the record unchanged; after
`base = 110` (with `mod = 0`), `max` reads 110. -/
theorem gauge_max_readonly :
    (∀ (s : GaugeData) (v : ℚ), (gsetMax s v).2 = s ∧
      ∃ msg, (gsetMax s v).1 = TraitError.traitException msg) ∧
    (∀ s : GaugeData, (gdelMax s).2 = s ∧
      ∃ msg, (gdelMax s).1 = TraitError.traitException msg) ∧
    (∀ s : GaugeData, gmax s = s.base + s.mod) ∧
    gmax (gsetBase c7Gauge 110) = 110 := by
  refine ⟨fun s v => ⟨rfl, ⟨_, rfl⟩⟩, fun s => ⟨rfl, ⟨_, rfl⟩⟩, fun s => rfl, ?_⟩
  norm_num [gsetBase, gmax, gmin, c7Gauge]

/-- C8: a fresh Gauge reads `value = base + mod` (its `current` defaults
to `base + mod`), `value` is exactly the `current` read, and `reset()`
restores `current = base + mod`; concretely `100 -> 70 -> 100` through
`current -= 30` and `reset()`. -/
theorem gauge_value_current_reset :
    (∀ b : ℚ, 0 ≤ b → (greadValue (freshGauge b) 0).1 = b) ∧
    (∀ (s : GaugeData) (now : ℚ), greadValue s now = greadCurrent s now) ∧
    (∀ s : GaugeData, (gdelCurrent s).current = some (s.base + s.mod)) ∧
    (greadValue (freshGauge 100) 0).1 = 100 ∧
    (greadValue (gsetCurrent (freshGauge 100)
      ((greadValue (freshGauge 100) 0).1 - 30) 0) 0).1 = 70 ∧
    (greadValue (gdelCurrent (gsetCurrent (freshGauge 100)
      ((greadValue (freshGauge 100) 0).1 - 30) 0)) 0).1 = 100 := by
  refine ⟨?_, fun s now => rfl, fun s => rfl, ?_, ?_, ?_⟩
  · intro b hb
    simp only [greadValue, greadCurrent, gupdateCurrent, freshGauge]
    norm_num [genforce, gmin]
    exact fun h => le_antisymm hb h
  all_goals
    norm_num [greadValue, greadCurrent, gupdateCurrent, gsetCurrent,
      gdelCurrent, gcheckAndStartTimer, gwithin, genforce, gmin, gmax,
      gpassedRatetarget, gstopTimer, freshGauge, Option.getD]

/-- C9 counterexample: writing the non-numeric value `"x"` into a Static
trait's `base` is stored, not ignored - the prior `base = 3` is lost. -/
theorem static_base_write_cex :
    c9Static.base = PyVal.num 3 ∧
    (staticSetBase c9Static (PyVal.str "x")).base = PyVal.str "x" ∧
    (staticSetBase c9Static (PyVal.str "x")).base ≠ c9Static.base :=
  ⟨rfl, rfl, fun h => nomatch h⟩

/-- C1: with a nonzero rate, an armed timer and a crossed `ratetarget`, a
`current` read stores and returns `ratetarget - mod` and unsets
`last_update`; concretely, the Counter `base=10, mod=1, min=0, max=100,
current=41, rate=1, ratetarget=71` read 100 s later yields `value = 71`
(not 100), stored current `70`, timer off. -/
theorem counter_ratetarget_stop :
    (∀ (s : CounterData) (now lu rt : ℚ), s.rate ≠ 0 → s.last_update = some lu →
      s.ratetarget = some rt →
      ((0 < s.rate ∧ rt ≤ s.current.getD s.base + s.rate * (now - lu) + s.mod) ∨
       (s.rate < 0 ∧ s.current.getD s.base + s.rate * (now - lu) + s.mod ≤ rt)) →
      readCurrent s now =
        (rt - s.mod,
          { s with last_update := none, current := some (rt - s.mod) })) ∧
    (readValue c1Example 100).1 = 71 ∧
    (readValue c1Example 100).2.current = some 70 ∧
    (readValue c1Example 100).2.last_update = none := by
  refine ⟨?_, ?_⟩
  · intro s now lu rt hr hlu hrt hcross
    have hpass : passedRatetarget s
        (s.current.getD s.base + s.rate * (now - lu) + s.mod) = true := by
      simp only [passedRatetarget, hrt]
      rcases hcross with ⟨h1, h2⟩ | ⟨h1, h2⟩
      · simp [h1, h2]
      · simp [h1, h2]
    simp [readCurrent, updateCurrent, hlu, hr, hpass, stopTimer, hrt]
  · norm_num [readValue, readCurrent, updateCurrent, withinBoundaries,
      enforceBoundaries, enforceMax, passedRatetarget, stopTimer, c1Example,
      Option.some_ne_none, Option.getD]

/-- C2 counterexample: a Gauge with `rate=1`, an armed timer and a stored
`ratetarget=150` above `base+mod=100` reads `150` and, re-read at the same
injected time, `100` - the double read is not idempotent as claimed. -/
theorem gauge_double_read_cex :
    c2Gauge.rate ≠ 0 ∧ c2Gauge.last_update = some 0 ∧
    (greadValue c2Gauge 200).1 = 150 ∧
    (greadValue ((greadValue c2Gauge 200).2) 200).1 = 100 ∧
    (greadValue ((greadValue c2Gauge 200).2) 200).1 ≠ (greadValue c2Gauge 200).1 := by
  refine ⟨by norm_num [c2Gauge], rfl, ?_, ?_, ?_⟩ <;>
    norm_num [greadValue, greadCurrent, gupdateCurrent, gwithin, genforce, gmin,
      gmax, gpassedRatetarget, gstopTimer, c2Gauge, Option.some_ne_none, Option.getD]

/-- C2 (amended): double reads at one injected time agree for every Counter;
for a Gauge they agree provided `min ≤ base + mod` and the stored
`ratetarget`, when set, lies within `[min, base + mod]`. -/
theorem decay_double_read :
    (∀ (s : CounterData) (t0 t1 : ℚ), s.rate ≠ 0 → s.last_update = some t0 →
      (readValue ((readValue s t1).2) t1).1 = (readValue s t1).1) ∧
    (∀ (g : GaugeData) (t0 t1 : ℚ), g.rate ≠ 0 → g.last_update = some t0 →
      gmin g ≤ g.base + g.mod →
      (∀ rt, g.ratetarget = some rt → gmin g ≤ rt ∧ rt ≤ g.base + g.mod) →
      (greadValue ((greadValue g t1).2) t1).1 = (greadValue g t1).1) :=
  ⟨counter_read_idem, gauge_read_idem⟩

/-- C4 counterexample: writing `current=95` to a Counter with `min=0,
max=100, mod=10` stores `95`, and `95 + 10 ≤ 100` fails - the claimed
`min ≤ stored_current + mod ≤ max` does not hold. -/
theorem current_write_mod_cex :
    c4Example.min = some 0 ∧ c4Example.max = some 100 ∧ c4Example.mod = 10 ∧
    (setCurrent c4Example 95 0).current = some 95 ∧
    ¬ ((95 : ℚ) + 10 ≤ 100) := by
  refine ⟨rfl, rfl, rfl, ?_, by norm_num⟩
  norm_num [setCurrent, checkAndStartTimer, enforceBoundaries, enforceMax,
    withinBoundaries, passedRatetarget, c4Example]

/-- C4 (amended): every numeric `current` write stores
`enforce_boundaries(value)`, which lies within `[min, max]` itself (without
`mod`) whenever both bounds are set with `min ≤ max`; writing 200 into the
`[0,100]` Counter stores 100. -/
theorem current_write_clamped :
    (∀ (s : CounterData) (v now : ℚ),
      (setCurrent s v now).current = some (enforceBoundaries s v)) ∧
    (∀ (s : CounterData) (v mn mx : ℚ),
      s.min = some mn → s.max = some mx → mn ≤ mx →
      mn ≤ enforceBoundaries s v ∧ enforceBoundaries s v ≤ mx) ∧
    (setCurrent c4Example 200 0).current = some 100 := by
  refine ⟨?_, ?_, ?_⟩
  · intro s v now
    simp [setCurrent]
  · intro s v mn mx hmn hmx hle
    exact enforce_between s v mn mx hmn hmx hle
  · norm_num [setCurrent, checkAndStartTimer, enforceBoundaries, enforceMax,
      withinBoundaries, passedRatetarget, c4Example]

/-- C10: the `ratetarget` setter stores `enforce_boundaries(r)` - `min` for
`r ≤ min`, `max` for `r ≥ max`, always within the bounds when both are set
with `min ≤ max`; storing 150 on the `[0,100]` Counter keeps 100. -/
theorem ratetarget_setter_clamps :
    (∀ (s : CounterData) (v now : ℚ),
      (setRatetarget s v now).ratetarget = some (enforceBoundaries s v)) ∧
    (∀ (s : CounterData) (v mn mx : ℚ),
      s.min = some mn → s.max = some mx → mn ≤ mx →
      (v ≤ mn → enforceBoundaries s v = mn) ∧
      (mx ≤ v → enforceBoundaries s v = mx) ∧
      mn ≤ enforceBoundaries s v ∧ enforceBoundaries s v ≤ mx) ∧
    (setRatetarget c1Example 150 0).ratetarget = some 100 := by
  refine ⟨setRatetarget_stores, ?_, ?_⟩
  · intro s v mn mx hmn hmx hle
    exact ⟨enforce_low s v mn hmn, enforce_high s v mn mx hmn hmx hle,
      enforce_between s v mn mx hmn hmx hle⟩
  · rw [setRatetarget_stores]
    norm_num [enforceBoundaries, enforceMax, c1Example]

/-- C9 (amended): the Static `mod` setter ignores non-numeric input as a
silent no-op (and stores numeric input); `base` has no such guard - any
value written to `base` is stored through the extra-property path. -/
theorem static_setter_guard :
    (∀ (s : StaticData) (v : PyVal), isNum v = false → staticSetMod s v = s) ∧
    (∀ (s : StaticData) (q : ℚ), staticSetMod s (.num q) = { s with mod := .num q }) ∧
    (∀ (s : StaticData) (v : PyVal), staticSetBase s v = { s with base := v }) ∧
    staticSetMod c9Static (PyVal.str "x") = c9Static := by
  refine ⟨?_, fun s q => rfl, fun s v => rfl, rfl⟩
  intro s v hv
  cases v <;> simp_all [staticSetMod, isNum]

end Traits
